import Mathlib

/-!
Verification development for the Adaptive Scoring and Weight-Learning Engine of
the crypto-scanner server (src/crypto_scanner_server.js).  The source file is a
concatenation of successive revisions of the same program; following the spec's
design note (section 9), the final revision (the one defining
processSymbolForScan and runWithConcurrency) is embedded here as the
authoritative code.

Modelling conventions:
* JavaScript numbers are modelled as exact rationals (IEEE-754 rounding is not
  modelled); Math.round is floor (x + 1/2), which is the JS half-up rule.
* The accuracy value travels as a string in JS ('N/A', a toFixed(1) rendering of
  a percentage, or '0').  It is modelled as an Option of a rational: none is the
  string 'N/A' (whose parseFloat is NaN), some q is a numeric string.  NaN
  propagation through the accuracy sum in averageWeights is modelled by an
  absorbing none.
* Array indexing out of range yields undefined in JS.  Where the surrounding
  guards make the access in range, getD with a junk default is used; the one
  place where an out-of-range read is reachable and semantically relevant (the
  ATR lookup in processSymbolForScan) is modelled with get? so that the absent
  value is visible, exactly as the JS comparison (undefined > 1e-6 is false).
-/

namespace CryptoScanner

/-- Math.round in JS: round half toward positive infinity. -/
def jsRound (q : ℚ) : ℤ := ⌊q + 1/2⌋

/-- Math.sign in JS (on non-NaN numbers): -1, 0 or 1. -/
def jsSign (q : ℚ) : ℚ := if 0 < q then 1 else if q < 0 then -1 else 0

/-- Number.prototype.toFixed(1), modelled as rounding to one decimal place. -/
def toFixed1 (q : ℚ) : ℚ := (jsRound (q * 10) : ℚ) / 10

/-- One OHLCV candle ({time, open, high, low, close, volume} in the source; the
time field is never used by the algorithmic core and is omitted). -/
structure Candle where
  open_ : ℚ
  high : ℚ
  low : ℚ
  close : ℚ
  volume : ℚ
deriving DecidableEq

/-- A junk candle standing for an out-of-range read that the source's guards
make unreachable. -/
def defaultCandle : Candle := ⟨0, 0, 0, 0, 0⟩

-- Configuration constants of the source.
def LOOKBACK_PERIOD : ℕ := 200
def LEARNING_TRADE_COUNT : ℕ := 50
def LOOKAHEAD_CANDLES : ℕ := 4
def OBI_WEIGHT : ℚ := 15
def LEARNING_RATE : ℚ := 1/2
def CONCURRENCY_LIMIT : ℕ := 10

/-- Math.min of a spread nonempty list (the empty case is unreachable at every
call site and is given a junk value). -/
def listMin : List ℚ → ℚ
  | [] => 0
  | x :: xs => xs.foldl min x

/-- Math.max of a spread nonempty list (empty case unreachable, junk value). -/
def listMax : List ℚ → ℚ
  | [] => 0
  | x :: xs => xs.foldl max x

/-- calculate_ema: first element seeds with the running simple average (the
accumulator is null only at index 0), then the exponential recurrence with
alpha = 2/(window+1). -/
def calculate_ema (data : List ℚ) (window : ℕ) : List ℚ :=
  let alpha : ℚ := 2 / ((window : ℚ) + 1)
  (data.enum.foldl
    (fun (st : List ℚ × Option ℚ) (ix : ℕ × ℚ) =>
      let cur : ℚ :=
        match st.2 with
        | none => ((data.take (ix.1 + 1)).sum) / ((ix.1 : ℚ) + 1)
        | some prev => alpha * ix.2 + (1 - alpha) * prev
      (st.1 ++ [cur], some cur))
    ([], none)).1

/-- calculate_macd (fast 12, slow 26, signal 9): returns the macd_hist array.
The signal line is recomputed over the growing prefix at every index, as in the
source; the JS fallback (last signal value or 0 when absent) is getLast?.getD 0. -/
def calculate_macd (data : List Candle) : List ℚ :=
  let closes := data.map (·.close)
  let ema_fast := calculate_ema closes 12
  let ema_slow := calculate_ema closes 26
  let macd_line := ema_fast.zipWith (fun f s => f - s) ema_slow
  macd_line.enum.map (fun im =>
    let signal_line := calculate_ema (macd_line.take (im.1 + 1)) 9
    im.2 - (signal_line.getLast?.getD 0))

/-- Running OBV loop: previous candle, running value, remaining candles. -/
def obvGo : List Candle → Candle → ℚ → List ℚ
  | [], _, _ => []
  | d :: rest, prev, acc =>
    let nxt : ℚ :=
      if prev.close < d.close then acc + d.volume
      else if d.close < prev.close then acc - d.volume
      else acc
    nxt :: obvGo rest d nxt

/-- calculate_obv: cumulative volume sum seeded at the first candle's volume. -/
def calculate_obv : List Candle → List ℚ
  | [] => []
  | d :: rest => d.volume :: obvGo rest d d.volume

/-- calculate_stochastic with k_window (default 14): the array is initialised
to 50 and entries from index k_window-1 on are overwritten when the trailing
window's range exceeds 1e-6. -/
def calculate_stochastic (data : List Candle) (k_window : ℕ := 14) : List ℚ :=
  (List.range data.length).map (fun i =>
    if k_window - 1 ≤ i then
      let windowData := (data.drop (i + 1 - k_window)).take k_window
      let lowestLow := listMin (windowData.map (·.low))
      let highestHigh := listMax (windowData.map (·.high))
      let currentClose := (data.getD i defaultCandle).close
      let range := highestHigh - lowestLow
      if range > 1/1000000 then 100 * (currentClose - lowestLow) / range else 50
    else 50)

/-- The true-range list of calculate_atr: for each adjacent pair (prev, cur),
max(high-low, abs(high-prevClose), abs(low-prevClose)). -/
def trueRangesOf (data : List Candle) : List ℚ :=
  (data.zip data.tail).map (fun pc =>
    max (pc.2.high - pc.2.low) (max |pc.2.high - pc.1.close| |pc.2.low - pc.1.close|))

/-- Wilder smoothing loop of calculate_atr over the true ranges past the
initial window. -/
def atrGo (window : ℕ) : List ℚ → ℚ → List ℚ
  | [], _ => []
  | t :: rest, cur =>
    let nxt := (cur * ((window : ℚ) - 1) + t) / (window : ℚ)
    nxt :: atrGo window rest nxt

/-- calculate_atr: the returned array is
Array(data.length - trueRanges.length).fill(atr[0] or 0).concat(atr), exactly
as in the source (note the padding count uses trueRanges.length). -/
def calculate_atr (data : List Candle) (window : ℕ := 14) : List ℚ :=
  let trueRanges := trueRangesOf data
  let atr : List ℚ :=
    if 0 < trueRanges.length then
      let initial_sum := (trueRanges.take window).sum
      let current_atr := initial_sum / (window : ℚ)
      current_atr :: atrGo window (trueRanges.drop window) current_atr
    else []
  List.replicate (data.length - trueRanges.length) (atr.headD 0) ++ atr

/-- calculate_volume_pressure: maps the close position inside the candle's
high-low range to -100..100, and 0 when the range is below 1e-6. -/
def calculate_volume_pressure (lastCandle : Candle) : ℚ :=
  let range := lastCandle.high - lastCandle.low
  if range < 1/1000000 then 0
  else
    let close_position := (lastCandle.close - lastCandle.low) / range
    let sentiment := close_position * 2 - 1
    sentiment * 100

/-- The four adjustable indicator keys of the weight object
(Object.keys insertion order: OBV, STOCH, OI_PROXY, MACD). -/
inductive IKey where
  | OBV | STOCH | OI_PROXY | MACD
deriving DecidableEq

/-- The adjustable WeightVector {OBV, STOCH, OI_PROXY, MACD}. -/
structure Weights where
  OBV : ℚ
  STOCH : ℚ
  OI_PROXY : ℚ
  MACD : ℚ
deriving DecidableEq

def Weights.get (w : Weights) : IKey → ℚ
  | .OBV => w.OBV
  | .STOCH => w.STOCH
  | .OI_PROXY => w.OI_PROXY
  | .MACD => w.MACD

def Weights.set (w : Weights) : IKey → ℚ → Weights
  | .OBV, q => { w with OBV := q }
  | .STOCH, q => { w with STOCH := q }
  | .OI_PROXY, q => { w with OI_PROXY := q }
  | .MACD, q => { w with MACD := q }

/-- Object.keys(CURRENT_WEIGHTS) and Object.keys(initialWeights):
the fixed key order of the weight object. -/
def indicatorKeys : List IKey := [.OBV, .STOCH, .OI_PROXY, .MACD]

/-- Object.values(w).reduce((a, b) => a + b, 0). -/
def sumW (w : Weights) : ℚ := w.OBV + w.STOCH + w.OI_PROXY + w.MACD

/-- The hardcoded default weights (OBV 30, STOCH 25, OI_PROXY 20, MACD 10). -/
def defaultWeights : Weights := ⟨30, 25, 20, 10⟩

/-- The data-model invariant of a WeightVector: the four adjustable values sum
to the learned budget 100 - OBI_WEIGHT = 85 and each lies in [5, 100]. -/
def validWeights (w : Weights) : Prop :=
  sumW w = 85 ∧
  5 ≤ w.OBV ∧ w.OBV ≤ 100 ∧ 5 ≤ w.STOCH ∧ w.STOCH ≤ 100 ∧
  5 ≤ w.OI_PROXY ∧ w.OI_PROXY ≤ 100 ∧ 5 ≤ w.MACD ∧ w.MACD ≤ 100

instance (w : Weights) : Decidable (validWeights w) := by
  unfold validWeights; infer_instance

/-- Direction strings of the source: "UP", "DOWN" and (for actual outcomes
only) "FLAT". -/
inductive Direction where
  | UP | DOWN | FLAT
deriving DecidableEq

/-- The per-indicator signed contributions recorded by generatePrediction
(four adjustable keys plus the static OBI contribution). -/
structure ComponentScores where
  OBV : ℚ
  STOCH : ℚ
  OI_PROXY : ℚ
  MACD : ℚ
  OBI : ℚ
deriving DecidableEq

def ComponentScores.get (c : ComponentScores) : IKey → ℚ
  | .OBV => c.OBV
  | .STOCH => c.STOCH
  | .OI_PROXY => c.OI_PROXY
  | .MACD => c.MACD

/-- The PredictionResult of generatePrediction. -/
structure Prediction where
  prediction : Direction
  confidence : ℚ
  score : ℚ
  componentScores : ComponentScores
deriving DecidableEq

/-- generatePrediction: the five-indicator threshold ladder, signed sum,
UP/DOWN call (ties to UP) and confidence min(100, abs(score)). -/
def generatePrediction (obvPctChange stochK macdHist volumePressure obiPct : ℚ)
    (weights : Weights) : Prediction :=
  let obvScore : ℚ :=
    if obvPctChange > 1 then weights.OBV
    else if obvPctChange < -1 then -weights.OBV
    else 0
  let stochScore : ℚ :=
    if stochK < 25 then weights.STOCH
    else if stochK > 75 then -weights.STOCH
    else 0
  let oiScore : ℚ :=
    if volumePressure > 50 then weights.OI_PROXY
    else if volumePressure < -50 then -weights.OI_PROXY
    else if volumePressure > 10 then weights.OI_PROXY / 2
    else if volumePressure < -10 then -weights.OI_PROXY / 2
    else 0
  let macdScore : ℚ :=
    if macdHist > 0 then weights.MACD
    else if macdHist < 0 then -weights.MACD
    else 0
  let obiScore : ℚ :=
    if obiPct > 65 then OBI_WEIGHT
    else if obiPct < 35 then -OBI_WEIGHT
    else if obiPct > 55 then OBI_WEIGHT / 2
    else if obiPct < 45 then -OBI_WEIGHT / 2
    else 0
  let score : ℚ := 0 + obvScore + stochScore + oiScore + macdScore + obiScore
  let prediction : Direction := if score ≥ 0 then .UP else .DOWN
  let confidence : ℚ := min 100 |score|
  ⟨prediction, confidence, score, ⟨obvScore, stochScore, oiScore, macdScore, obiScore⟩⟩

/-- The per-trial weight update of calculate_and_adjust_weights (final
revision): on a hit every adjustable key whose contribution sign equals the
sign of the net score moves up by the learning rate capped at 100; on a miss
the same keys move down by the learning rate floored at 5. -/
def applyTrialUpdate (isHit : Bool) (cs : ComponentScores) (score : ℚ)
    (w : Weights) : Weights :=
  if isHit then
    indicatorKeys.foldl (fun acc k =>
      if jsSign (cs.get k) = jsSign score then
        acc.set k (min 100 (acc.get k + LEARNING_RATE))
      else acc) w
  else
    indicatorKeys.foldl (fun acc k =>
      if jsSign (cs.get k) = jsSign score then
        acc.set k (max 5 (acc.get k - LEARNING_RATE))
      else acc) w

/-- Body of one learner trial: recompute every indicator on the candle prefix
ending at predictIndex, predict with the in-progress weights and a neutral
order-book input of 50, and compare with the actual close-to-close direction.
Returns the updated weights and whether the trial was a hit. -/
def learnerTrial (data : List Candle) (i : ℕ) (w : Weights) : Weights × Bool :=
  let predictIndex := data.length - LOOKAHEAD_CANDLES - 1 - i
  let outcomeIndex := data.length - 1 - i
  let predictCandle := data.getD predictIndex defaultCandle
  let outcomeCandle := data.getD outcomeIndex defaultCandle
  let subData := data.take (predictIndex + 1)
  let obv_values := calculate_obv subData
  let macd_hist := calculate_macd subData
  let stoch_k := (calculate_stochastic subData).getD predictIndex 0
  let volume_pressure := calculate_volume_pressure predictCandle
  let macd_hist_val := macd_hist.getD predictIndex 0
  let obv_window_start := predictIndex - 20
  let obv_window := (obv_values.drop obv_window_start).take (predictIndex - obv_window_start)
  let initial_obv := obv_window.getD 0 0
  let final_obv := obv_window.getD (obv_window.length - 1) 0
  let obv_pct_change :=
    (final_obv - initial_obv) / |if initial_obv = 0 then 1/1000000 else initial_obv| * 100
  let NEUTRAL_OBI : ℚ := 50
  let prediction :=
    generatePrediction obv_pct_change stoch_k macd_hist_val volume_pressure NEUTRAL_OBI w
  let actualChange := outcomeCandle.close - predictCandle.close
  let actualDirection : Direction :=
    if 0 < actualChange then .UP else if actualChange < 0 then .DOWN else .FLAT
  let isHit := prediction.prediction = actualDirection
  (applyTrialUpdate isHit prediction.componentScores prediction.score w, isHit)

/-- The trial loop of calculate_and_adjust_weights.  Arguments: remaining
iterations, current index i, hits so far, current weights; returns
(totalTrades, hits, weights).  The break (predictIndex < 26 or outcomeIndex
past the series) sets totalTrades to the current i and leaves the loop. -/
def learnLoop (data : List Candle) : ℕ → ℕ → ℕ → Weights → ℕ × ℕ × Weights
  | 0, i, hits, w => (i, hits, w)
  | rem + 1, i, hits, w =>
    let predictIndex := data.length - LOOKAHEAD_CANDLES - 1 - i
    let outcomeIndex := data.length - 1 - i
    if predictIndex < 26 ∨ data.length ≤ outcomeIndex then (i, hits, w)
    else
      let (w', isHit) := learnerTrial data i w
      learnLoop data rem (i + 1) (hits + if isHit then 1 else 0) w'

/-- The final normalization of calculate_and_adjust_weights: scale every key by
85/total, round, then add the exact remainder to the first key (OBV) so the sum
is exactly 85. -/
def normalizeWeights (w : Weights) : Weights :=
  let TARGET_TOTAL_WEIGHT : ℚ := 100 - OBI_WEIGHT
  let currentTotal := sumW w
  let normalizationFactor := TARGET_TOTAL_WEIGHT / currentTotal
  let w1 := indicatorKeys.foldl
    (fun acc k => acc.set k ((jsRound (acc.get k * normalizationFactor) : ℤ) : ℚ)) w
  let sumCorrection := TARGET_TOTAL_WEIGHT - sumW w1
  if sumCorrection ≠ 0 then w1.set .OBV (w1.get .OBV + sumCorrection) else w1

/-- The {newWeights, accuracy} result of the learner; accuracy none models the
string 'N/A'. -/
structure AdjustResult where
  newWeights : Weights
  accuracy : Option ℚ
deriving DecidableEq

/-- calculate_and_adjust_weights (final revision): guard on
data.length < LOOKBACK_PERIOD, run up to LEARNING_TRADE_COUNT trials, normalize
to the 85 budget, report accuracy hits/totalTrades*100 toFixed(1), or '0' when
no trial ran. -/
def calculate_and_adjust_weights (data : List Candle) (initialWeights : Weights) :
    AdjustResult :=
  if data.length < LOOKBACK_PERIOD then ⟨initialWeights, none⟩
  else
    let r := learnLoop data LEARNING_TRADE_COUNT 0 0 initialWeights
    let totalTrades := r.1
    let hits := r.2.1
    let adjustedWeights := normalizeWeights r.2.2
    let accuracy : Option ℚ :=
      if 0 < totalTrades then some (toFixed1 ((hits : ℚ) / (totalTrades : ℚ) * 100))
      else some 0
    ⟨adjustedWeights, accuracy⟩

/-- One {weights, accuracy} entry handed by the learning loop to
averageWeights; accuracy none models the string 'N/A'. -/
structure LearnedResult where
  weights : Weights
  accuracy : Option ℚ
deriving DecidableEq

/-- {averagedWeights, averageAccuracy} of averageWeights; averageAccuracy none
models the string "NaN" produced when parseFloat('N/A') = NaN contaminates the
accuracy sum. -/
structure AveragedResult where
  averagedWeights : Weights
  averageAccuracy : Option ℚ
deriving DecidableEq

/-- totalAccuracy += parseFloat(accuracy): rational addition, absorbing into
none once a NaN ('N/A') has been added. -/
def addAcc : Option ℚ → Option ℚ → Option ℚ
  | some a, some b => some (a + b)
  | _, _ => none

/-- The body of the accumulation loop of averageWeights: add the entry's
weights per key and its parsed accuracy to the running state. -/
def accumWeightsAcc (st : Weights × Option ℚ) (r : LearnedResult) : Weights × Option ℚ :=
  (indicatorKeys.foldl (fun acc k => acc.set k (acc.get k + r.weights.get k)) st.1,
   addAcc st.2 r.accuracy)

/-- averageWeights (final revision): per-key mean (rounded), proportional
renormalization to 85 with a floor of 5, a second unfloored renormalization,
and an exact remainder correction on the first key (OBV).  The accuracy average
includes every entry; an 'N/A' entry makes it NaN (none). -/
def averageWeights (allLearnedResults : List LearnedResult) : AveragedResult :=
  let st := allLearnedResults.foldl accumWeightsAcc (⟨0, 0, 0, 0⟩, some 0)
  let totalAccuracy := st.2
  let count : ℚ := (allLearnedResults.length : ℚ)
  let aw1 := indicatorKeys.foldl
    (fun acc k => acc.set k ((jsRound (acc.get k / count) : ℤ) : ℚ)) st.1
  let TARGET_TOTAL_WEIGHT : ℚ := 100 - OBI_WEIGHT
  let currentTotal := sumW aw1
  let normalizationFactor := TARGET_TOTAL_WEIGHT / currentTotal
  let aw2 := indicatorKeys.foldl
    (fun acc k => acc.set k (max 5 ((jsRound (acc.get k * normalizationFactor) : ℤ) : ℚ))) aw1
  let finalTotal := sumW aw2
  let finalNormalizationFactor := TARGET_TOTAL_WEIGHT / finalTotal
  let aw3 := indicatorKeys.foldl
    (fun acc k => acc.set k ((jsRound (acc.get k * finalNormalizationFactor) : ℤ) : ℚ)) aw2
  let sumCorrection := TARGET_TOTAL_WEIGHT - sumW aw3
  let aw4 := if sumCorrection ≠ 0 then aw3.set .OBV (aw3.get .OBV + sumCorrection) else aw3
  let averageAccuracy := totalAccuracy.map (fun t => toFixed1 (t / count))
  ⟨aw4, averageAccuracy⟩

/-- An order book as fetched: bids and asks are lists of (price, qty) levels;
a missing side (none) models a malformed payload, and the book itself may be
absent (the Option at the call sites). -/
structure OrderBook where
  bids : Option (List (ℚ × ℚ))
  asks : Option (List (ℚ × ℚ))

/-- The reduce((sum, [price, qty], index) => sum + qty * (limit - index), 0)
accumulation of calculate_depth_weighted_imbalance. -/
def weightedVol (levels : List (ℚ × ℚ)) (limit : ℕ) : ℚ :=
  levels.enum.foldl (fun s iq => s + iq.2.2 * ((limit : ℚ) - (iq.1 : ℚ))) 0

/-- calculate_depth_weighted_imbalance: 0 for an absent book or a missing side,
50 when the total weighted volume is below 1e-6, otherwise
weighted-bid / (weighted-bid + weighted-ask) * 100.  Both sides are weighted
with limit = bids.length. -/
def calculate_depth_weighted_imbalance (book : Option OrderBook) : ℚ :=
  match book with
  | none => 0
  | some b =>
    match b.bids, b.asks with
    | some bids, some asks =>
      let limit := bids.length
      let totalWeightedBidVolume := weightedVol bids limit
      let totalWeightedAskVolume := weightedVol asks limit
      let totalWeightedVolume := totalWeightedBidVolume + totalWeightedAskVolume
      if totalWeightedVolume < 1/1000000 then 50
      else totalWeightedBidVolume / totalWeightedVolume * 100
    | _, _ => 0

/-- The per-symbol ScanResult (symbol string and toFixed display formatting of
the numeric payload are not modelled). -/
structure ScanResult where
  score : ℚ
  confidence : ℚ
  prediction : Direction
  recentChange : ℚ
  atr : ℚ
  obiPct : ℚ
deriving DecidableEq

/-- The pure core of processSymbolForScan, taking the fetched candle data and
order book as arguments (the two network fetches are the only effects of the
source function; a fetch failure is the caught-exception path returning null
and is outside this core).  The ATR lookup at lastIndex is modelled with get?:
when it is out of range the JS value is undefined, and
(undefined > 1e-6) is false, so the volatility quotient is 0. -/
def processSymbolForScan (data : List Candle) (orderBook : Option OrderBook)
    (optimizedWeights : Weights) : Option ScanResult :=
  if data.length < LOOKBACK_PERIOD - 1 then none
  else
    let obiPct := calculate_depth_weighted_imbalance orderBook
    let lastIndex := data.length - 2
    let current := data.getD lastIndex defaultCandle
    let previous := data.getD (lastIndex - 1) defaultCandle
    let obv_values := calculate_obv data
    let macd_hist := calculate_macd data
    let stoch_k := (calculate_stochastic data).getD lastIndex 0
    let volume_pressure := calculate_volume_pressure current
    let macd_hist_val := macd_hist.getD lastIndex 0
    let atr_values := calculate_atr data 14
    let current_atr : Option ℚ := atr_values.get? lastIndex
    let obv_window := (obv_values.drop (lastIndex - 20)).take (lastIndex - (lastIndex - 20))
    let initial_obv := obv_window.getD 0 0
    let final_obv := obv_window.getD (obv_window.length - 1) 0
    let obv_pct_change :=
      (final_obv - initial_obv) / |if initial_obv = 0 then 1/1000000 else initial_obv| * 100
    let recent_price_change := (current.close - previous.close) / previous.close * 100
    let prediction :=
      generatePrediction obv_pct_change stoch_k macd_hist_val volume_pressure obiPct
        optimizedWeights
    let lastCandleBody := |current.close - current.open_|
    let recentVolatility : ℚ :=
      match current_atr with
      | some a => if a > 1/1000000 then lastCandleBody / a else 0
      | none => 0
    if prediction.confidence ≥ 50 ∧ recentVolatility > 1/2 then
      some ⟨prediction.score, prediction.confidence, prediction.prediction,
            recent_price_change, (current_atr.getD 0), obiPct⟩
    else none

/-!  Operational model of runWithConcurrency (final revision).

A task is modelled by its eventual settlement: rejection, or fulfilment with an
optional result (a null result is not pushed).  In the source each launched
task is wrapped as promise = task().finally(delete-from-active), and that
promise itself is the member of the active Set.  The rejection handler is
attached only to a derived promise (promise.then(push).catch(noop)), so it
does not stop the Set member from rejecting: when a rejecting member settles
while the loop is suspended on await Promise.race(active) or on the final
await Promise.all(active), the awaited promise rejects and the await throws
out of runWithConcurrency (which has no try/catch), abandoning the launch of
the remaining tasks and the collected result array.

The suspension points of the source are the only places a settlement can be
observed; the model delivers one settlement per await, the settling member
chosen by an oracle of natural numbers.  One settlement runs the .finally
(removing the member from the active list), runs the derived .then (appending
a fulfilled non-null value to the results), and, if the member rejected, makes
the pending await throw: the loops below then stop with the thrown flag set,
modelling the rejection propagating out of runWithConcurrency.  (A settlement
delivered in the same event-loop turn after another member has already won the
pending race is not represented: the modelled schedules are those in which
every settlement is observed by the await that is pending when it occurs,
which includes the reviewer-visible path where a rejection is the settlement
an await observes.)

The trace field records the size of the active set after every insertion and
removal up to the first thrown exception, so that the concurrency bound is a
statement about every instant of a run; the thrown flag records that the
promise returned by runWithConcurrency rejected, in which case the results
are never delivered to the caller. -/

/-- A task's eventual settlement. -/
inductive TaskOutcome (α : Type) where
  | reject : TaskOutcome α
  | fulfill : Option α → TaskOutcome α
deriving DecidableEq

/-- The results the source pushes: one value per fulfilled task whose value is
non-null, in settlement order. -/
def okVals {α : Type} : List (TaskOutcome α) → List α :=
  List.filterMap (fun t => match t with | .fulfill (some v) => some v | _ => none)

/-- One settlement: the oracle choice picks an active task (mod the size of
the set).  The task leaves the active set (its .finally); a fulfilled
non-null value is appended to the results (the derived .then); the third
component records whether the settled member rejected, in which case the
pending await Promise.race / Promise.all throws.  Never called on an empty
active set. -/
def settleOne {α : Type} (active : List (TaskOutcome α)) (results : List α)
    (choice : ℕ) : List (TaskOutcome α) × List α × Bool :=
  match active with
  | [] => ([], results, false)
  | _ :: _ =>
    let i := choice % active.length
    let t := active.getD i .reject
    (active.eraseIdx i,
     (match t with
      | .fulfill (some v) => results ++ [v]
      | _ => results),
     (match t with
      | .reject => true
      | _ => false))

/-- Scheduler state: in-flight tasks, collected results, active-set size after
every insertion and removal, the oracle cursor, and whether an awaited promise
has rejected (the exception propagating out of runWithConcurrency). -/
structure WCState (α : Type) where
  active : List (TaskOutcome α)
  results : List α
  trace : List ℕ
  cursor : ℕ
  thrown : Bool

/-- The launch loop of runWithConcurrency: add each task to the active set in
order; whenever the set has reached the limit, await one settlement before the
next launch.  If the awaited Promise.race rejects (the settled member was a
rejection), the await throws and the loop is abandoned with the remaining
tasks never launched. -/
def launchLoop {α : Type} (limit : ℕ) (oracle : ℕ → ℕ) :
    List (TaskOutcome α) → WCState α → WCState α
  | [], st => st
  | t :: rest, st =>
    let active1 := st.active ++ [t]
    if limit ≤ active1.length then
      let ar := settleOne active1 st.results (oracle st.cursor)
      let st' : WCState α :=
        ⟨ar.1, ar.2.1, st.trace ++ [active1.length, ar.1.length], st.cursor + 1, ar.2.2⟩
      if ar.2.2 then st' else launchLoop limit oracle rest st'
    else
      launchLoop limit oracle rest
        ⟨active1, st.results, st.trace ++ [active1.length], st.cursor, st.thrown⟩

/-- await Promise.all(active): settle the remaining active tasks one by one
(the fuel is the size of the active set); Promise.all rejects at the first
rejecting member, making the await throw. -/
def drainLoop {α : Type} (oracle : ℕ → ℕ) : ℕ → WCState α → WCState α
  | 0, st => st
  | fuel + 1, st =>
    match st.active with
    | [] => st
    | _ :: _ =>
      let ar := settleOne st.active st.results (oracle st.cursor)
      let st' : WCState α := ⟨ar.1, ar.2.1, st.trace ++ [ar.1.length], st.cursor + 1, ar.2.2⟩
      if ar.2.2 then st' else drainLoop oracle fuel st'

/-- runWithConcurrency: launch every task under the concurrency limit, then
wait for all remaining settlements.  An exception thrown in the launch loop
propagates (the drain is never reached); a thrown final state models the
function's returned promise rejecting, so its results are never delivered. -/
def runWithConcurrency {α : Type} (tasks : List (TaskOutcome α)) (limit : ℕ)
    (oracle : ℕ → ℕ) : WCState α :=
  let st := launchLoop limit oracle tasks ⟨[], [], [], 0, false⟩
  if st.thrown then st else drainLoop oracle st.active.length st

/-! ## Supporting lemmas -/

/-- The weighted volume written the way the spec phrases it: each level's size
weighted by (depth - index), the depth argument decreasing along the list. -/
def specWeightedSum : List (ℚ × ℚ) → ℤ → ℚ
  | [], _ => 0
  | l :: ls, d => l.2 * (d : ℚ) + specWeightedSum ls (d - 1)

lemma weightedVol_enumFrom (levels : List (ℚ × ℚ)) (limit : ℕ) :
    ∀ (k : ℕ) (s : ℚ),
      (levels.enumFrom k).foldl (fun s iq => s + iq.2.2 * ((limit : ℚ) - (iq.1 : ℚ))) s
        = s + specWeightedSum levels ((limit : ℤ) - (k : ℤ)) := by
  induction levels with
  | nil => intro k s; simp [specWeightedSum]
  | cons l ls ih =>
    intro k s
    rw [List.enumFrom_cons, List.foldl_cons, ih (k + 1), specWeightedSum]
    push_cast
    ring_nf

/-- The reduce of calculate_depth_weighted_imbalance computes exactly the
spec's (depth - index)-weighted volume. -/
lemma weightedVol_eq_spec (levels : List (ℚ × ℚ)) (limit : ℕ) :
    weightedVol levels limit = specWeightedSum levels (limit : ℤ) := by
  have h := weightedVol_enumFrom levels limit 0 0
  simpa [weightedVol, List.enum_eq_enumFrom] using h

/-! ## C9: the reference prediction example -/

/-- C9: with OBV change +2, Stochastic 10, MACD histogram +0.01, volume
pressure 60, order-book imbalance 70 and the default weights, generatePrediction
returns net score 100, direction UP and confidence 100 (confirmed). -/
theorem generatePrediction_reference_example :
    (generatePrediction 2 10 (1/100) 60 70 defaultWeights).score = 100 ∧
    (generatePrediction 2 10 (1/100) 60 70 defaultWeights).prediction = Direction.UP ∧
    (generatePrediction 2 10 (1/100) 60 70 defaultWeights).confidence = 100 := by
  refine ⟨?_, ?_, ?_⟩ <;> norm_num [generatePrediction, defaultWeights, OBI_WEIGHT]

/-! ## C10: net score, tie-break and confidence -/

/-- C10: for every input, the net score is the sum of the five signed
per-indicator contributions, the direction is UP exactly when the score is
at least 0 (a zero score resolves to UP) and DOWN otherwise, and the
confidence is min(100, abs(score)) (confirmed). -/
theorem generatePrediction_score_direction_confidence
    (obvPctChange stochK macdHist volumePressure obiPct : ℚ) (w : Weights) :
    (generatePrediction obvPctChange stochK macdHist volumePressure obiPct w).score
      = (generatePrediction obvPctChange stochK macdHist volumePressure obiPct w).componentScores.OBV
        + (generatePrediction obvPctChange stochK macdHist volumePressure obiPct w).componentScores.STOCH
        + (generatePrediction obvPctChange stochK macdHist volumePressure obiPct w).componentScores.OI_PROXY
        + (generatePrediction obvPctChange stochK macdHist volumePressure obiPct w).componentScores.MACD
        + (generatePrediction obvPctChange stochK macdHist volumePressure obiPct w).componentScores.OBI
    ∧ (generatePrediction obvPctChange stochK macdHist volumePressure obiPct w).prediction
      = (if 0 ≤ (generatePrediction obvPctChange stochK macdHist volumePressure obiPct w).score
         then Direction.UP else Direction.DOWN)
    ∧ (generatePrediction obvPctChange stochK macdHist volumePressure obiPct w).confidence
      = min 100 |(generatePrediction obvPctChange stochK macdHist volumePressure obiPct w).score| := by
  refine ⟨?_, ?_, ?_⟩
  · simp only [generatePrediction]; ring_nf
  · simp only [generatePrediction, ge_iff_le]
  · simp only [generatePrediction]

/-! ## C4: depth-weighted order-book imbalance -/

/-- C4 counterexample: for an absent order book, and likewise for a book with
a missing side, calculate_depth_weighted_imbalance returns 0, not the 50 the
claim states. -/
theorem dwobi_absent_book_counterexample :
    calculate_depth_weighted_imbalance none = 0 ∧
    calculate_depth_weighted_imbalance (some ⟨none, some [(1, 10)]⟩) = 0 ∧
    calculate_depth_weighted_imbalance none ≠ 50 := by
  refine ⟨rfl, rfl, ?_⟩
  norm_num [calculate_depth_weighted_imbalance]

/-- C4 amended: an absent or malformed book yields 0; with both sides present
the function returns 50 when the total (depth - index)-weighted volume is
below epsilon and weighted-bid / (weighted-bid + weighted-ask) * 100 otherwise
(both sides weighted with depth = bids.length); the symmetric two-level book
bids [[p,10],[p,5]], asks [[p,10],[p,5]] yields exactly 50. -/
theorem dwobi_amended :
    calculate_depth_weighted_imbalance none = 0
    ∧ (∀ asks, calculate_depth_weighted_imbalance (some ⟨none, asks⟩) = 0)
    ∧ (∀ bids, calculate_depth_weighted_imbalance (some ⟨bids, none⟩) = 0)
    ∧ (∀ bids asks : List (ℚ × ℚ),
        (specWeightedSum bids (bids.length : ℤ) + specWeightedSum asks (bids.length : ℤ)
            < 1/1000000 →
          calculate_depth_weighted_imbalance (some ⟨some bids, some asks⟩) = 50)
        ∧ (¬ specWeightedSum bids (bids.length : ℤ) + specWeightedSum asks (bids.length : ℤ)
            < 1/1000000 →
          calculate_depth_weighted_imbalance (some ⟨some bids, some asks⟩)
            = specWeightedSum bids (bids.length : ℤ)
              / (specWeightedSum bids (bids.length : ℤ)
                 + specWeightedSum asks (bids.length : ℤ)) * 100))
    ∧ calculate_depth_weighted_imbalance
        (some ⟨some [(1, 10), (1, 5)], some [(1, 10), (1, 5)]⟩) = 50 := by
  refine ⟨rfl, fun asks => ?_, fun bids => ?_, fun bids asks => ⟨fun h => ?_, fun h => ?_⟩, ?_⟩
  · cases asks <;> rfl
  · cases bids <;> rfl
  · simp only [calculate_depth_weighted_imbalance, weightedVol_eq_spec]
    rw [if_pos h]
  · simp only [calculate_depth_weighted_imbalance, weightedVol_eq_spec]
    rw [if_neg h]
  · norm_num [calculate_depth_weighted_imbalance, weightedVol_eq_spec, specWeightedSum]

/-- Witness for the amended C4 theorem: at the symmetric two-level book the
epsilon hypothesis of the formula branch holds, and the theorem yields the
weighted-sum formula there. -/
theorem dwobi_amended_witness :
    (¬ specWeightedSum [((1 : ℚ), (10 : ℚ)), (1, 5)] 2
        + specWeightedSum [((1 : ℚ), (10 : ℚ)), (1, 5)] 2 < 1/1000000)
    ∧ calculate_depth_weighted_imbalance
        (some ⟨some [(1, 10), (1, 5)], some [(1, 10), (1, 5)]⟩)
      = specWeightedSum [((1 : ℚ), (10 : ℚ)), (1, 5)] 2
          / (specWeightedSum [((1 : ℚ), (10 : ℚ)), (1, 5)] 2
             + specWeightedSum [((1 : ℚ), (10 : ℚ)), (1, 5)] 2) * 100 :=
  ⟨by norm_num [specWeightedSum],
   (dwobi_amended.2.2.2.1 [(1, 10), (1, 5)] [(1, 10), (1, 5)]).2 (by norm_num [specWeightedSum])⟩

/-! ## C1: the weight budget and range -/

/-- The final remainder-correction step (shared by the learner and the
aggregator) forces the sum of the four weights to exactly 85, whatever the
rounded values were. -/
lemma sumW_correction (x : Weights) :
    sumW (if (100 - OBI_WEIGHT) - sumW x ≠ 0
          then x.set .OBV (x.get .OBV + ((100 - OBI_WEIGHT) - sumW x))
          else x) = 85 := by
  obtain ⟨a, b, c, d⟩ := x
  simp only [Weights.set, Weights.get, sumW, OBI_WEIGHT]
  split_ifs with h
  · ring_nf
  · push_neg at h
    linarith

/-- The learner's final normalization always restores the exact 85 budget. -/
lemma sumW_normalizeWeights (w : Weights) : sumW (normalizeWeights w) = 85 := by
  simp only [normalizeWeights]
  exact sumW_correction _

/-- The aggregator's final correction always restores the exact 85 budget. -/
lemma sumW_averageWeights (panel : List LearnedResult) :
    sumW (averageWeights panel).averagedWeights = 85 := by
  simp only [averageWeights]
  exact sumW_correction _

/-- C1 counterexample: a two-entry panel of perfectly valid weight vectors
(each summing to 85 with every value in [5, 100]) for which averageWeights
outputs OBV = 4: the rounded re-normalization gives (5, 43, 19, 19) with sum
86, and the remainder correction pushes the first key below the floor of 5. -/
theorem averageWeights_floor_counterexample :
    validWeights ⟨5, 42, 19, 19⟩ ∧ validWeights ⟨5, 43, 19, 18⟩ ∧
    (averageWeights [⟨⟨5, 42, 19, 19⟩, some 50⟩, ⟨⟨5, 43, 19, 18⟩, some 50⟩]).averagedWeights
      = ⟨4, 43, 19, 19⟩ ∧
    (averageWeights [⟨⟨5, 42, 19, 19⟩, some 50⟩, ⟨⟨5, 43, 19, 18⟩, some 50⟩]).averagedWeights.OBV
      < 5 := by
  have h : (averageWeights [⟨⟨5, 42, 19, 19⟩, some 50⟩,
      ⟨⟨5, 43, 19, 18⟩, some 50⟩]).averagedWeights = ⟨4, 43, 19, 19⟩ := by
    norm_num [averageWeights, accumWeightsAcc, indicatorKeys, addAcc, Weights.set, Weights.get,
      sumW, jsRound, OBI_WEIGHT]
  refine ⟨by norm_num [validWeights, sumW], by norm_num [validWeights, sumW], h, ?_⟩
  rw [h]
  norm_num

/-- C1 amended: every WeightVector returned by the Learner (for input weights
satisfying the data-model invariant) and by the Aggregator (for a nonempty
panel of valid vectors) has its four adjustable values summing exactly to 85;
the individual values are not always inside [5, 100] (see the counterexample,
where the remainder correction leaves OBV = 4). -/
theorem learner_aggregator_sum_eq_budget :
    (∀ (data : List Candle) (w : Weights), validWeights w →
      sumW (calculate_and_adjust_weights data w).newWeights = 85)
    ∧ (∀ panel : List LearnedResult, panel ≠ [] →
      (∀ r ∈ panel, validWeights r.weights) →
      sumW (averageWeights panel).averagedWeights = 85) := by
  constructor
  · intro data w hv
    by_cases h : data.length < LOOKBACK_PERIOD
    · simp only [calculate_and_adjust_weights, if_pos h]
      exact hv.1
    · simp only [calculate_and_adjust_weights, if_neg h]
      exact sumW_normalizeWeights _
  · intro panel _ _
    exact sumW_averageWeights panel

/-- Witness for the amended C1 theorem: the default weights are valid, the
learner keeps the 85 budget on them, and a singleton panel of them keeps the
85 budget through the aggregator. -/
theorem learner_aggregator_sum_eq_budget_witness :
    (validWeights defaultWeights
      ∧ sumW (calculate_and_adjust_weights [] defaultWeights).newWeights = 85)
    ∧ (([⟨defaultWeights, some 50⟩] : List LearnedResult) ≠ []
      ∧ sumW (averageWeights [⟨defaultWeights, some 50⟩]).averagedWeights = 85) :=
  ⟨⟨by norm_num [validWeights, defaultWeights, sumW],
    learner_aggregator_sum_eq_budget.1 [] defaultWeights
      (by norm_num [validWeights, defaultWeights, sumW])⟩,
   ⟨by simp,
    learner_aggregator_sum_eq_budget.2 [⟨defaultWeights, some 50⟩] (by simp)
      (by intro r hr
          simp only [List.mem_singleton] at hr
          subst hr
          norm_num [validWeights, defaultWeights, sumW])⟩⟩

/-! ## C5: the learner's history guard -/

/-- C5 counterexample: a 54-candle sequence has exactly
learning-trade-count + lookahead = 54 candles, yet the final revision of
calculate_and_adjust_weights returns the input weights with accuracy 'N/A'
instead of running the trial loop (its guard is data.length < LOOKBACK_PERIOD
= 200). -/
theorem learner_guard_counterexample :
    (List.replicate 54 (⟨1, 3, 1, 2, 5⟩ : Candle)).length
      = LEARNING_TRADE_COUNT + LOOKAHEAD_CANDLES ∧
    calculate_and_adjust_weights (List.replicate 54 ⟨1, 3, 1, 2, 5⟩) defaultWeights
      = ⟨defaultWeights, none⟩ := by
  constructor
  · simp [LEARNING_TRADE_COUNT, LOOKAHEAD_CANDLES]
  · norm_num [calculate_and_adjust_weights, LOOKBACK_PERIOD]

/-- C5 amended: the Learner's guard is the scan lookback of 200 candles: any
shorter sequence returns a copy of the input weights with accuracy unavailable
('N/A'), and any sequence of at least 200 candles runs the trial path and
reports a numeric accuracy. -/
theorem learner_requires_lookback (data : List Candle) (w : Weights) :
    (data.length < LOOKBACK_PERIOD →
      calculate_and_adjust_weights data w = ⟨w, none⟩)
    ∧ (LOOKBACK_PERIOD ≤ data.length →
      ∃ a, (calculate_and_adjust_weights data w).accuracy = some a) := by
  constructor
  · intro h
    simp [calculate_and_adjust_weights, h]
  · intro h
    simp only [calculate_and_adjust_weights, if_neg (by omega : ¬ data.length < LOOKBACK_PERIOD)]
    split_ifs
    · exact ⟨_, rfl⟩
    · exact ⟨0, rfl⟩

/-- Witness for the amended C5 theorem: a 10-candle series takes the 'N/A'
path, and a 200-candle series reports a numeric accuracy. -/
theorem learner_requires_lookback_witness :
    ((List.replicate 10 (⟨1, 3, 1, 2, 5⟩ : Candle)).length < LOOKBACK_PERIOD
      ∧ calculate_and_adjust_weights (List.replicate 10 ⟨1, 3, 1, 2, 5⟩) defaultWeights
          = ⟨defaultWeights, none⟩)
    ∧ (LOOKBACK_PERIOD ≤ (List.replicate 200 (⟨1, 3, 1, 2, 5⟩ : Candle)).length
      ∧ ∃ a, (calculate_and_adjust_weights (List.replicate 200 ⟨1, 3, 1, 2, 5⟩)
                defaultWeights).accuracy = some a) :=
  ⟨⟨by simp [LOOKBACK_PERIOD],
    (learner_requires_lookback _ _).1 (by simp [LOOKBACK_PERIOD])⟩,
   ⟨by simp only [List.length_replicate]; norm_num [LOOKBACK_PERIOD],
    (learner_requires_lookback _ _).2
      (by simp only [List.length_replicate]; norm_num [LOOKBACK_PERIOD])⟩⟩

/-! ## C7: 'N/A' entries in the aggregator -/

lemma addAcc_none_right (x : Option ℚ) : addAcc x none = none := by
  cases x <;> rfl

lemma addAcc_none_left (x : Option ℚ) : addAcc none x = none := rfl

/-- Once the accuracy accumulator is NaN (none), it stays NaN. -/
lemma accumFold_absorb (panel : List LearnedResult) :
    ∀ st : Weights × Option ℚ, st.2 = none →
      (List.foldl accumWeightsAcc st panel).2 = none := by
  induction panel with
  | nil => intro st h; simpa using h
  | cons r rest ih =>
    intro st h
    rw [List.foldl_cons]
    exact ih _ (by simp [accumWeightsAcc, h, addAcc_none_left])

/-- Any 'N/A' entry turns the accuracy accumulator into NaN (none). -/
lemma accumFold_of_mem_none (panel : List LearnedResult) :
    ∀ st : Weights × Option ℚ, (∃ r ∈ panel, r.accuracy = none) →
      (List.foldl accumWeightsAcc st panel).2 = none := by
  induction panel with
  | nil => intro st h; simp at h
  | cons r rest ih =>
    intro st h
    rw [List.foldl_cons]
    obtain ⟨r', hr', hnone⟩ := h
    rcases List.mem_cons.mp hr' with rfl | hmem
    · exact accumFold_absorb rest _ (by simp [accumWeightsAcc, hnone, addAcc_none_right])
    · exact ih _ ⟨r', hmem, hnone⟩

/-- C7 counterexample: a panel with one numeric accuracy 50 and one 'N/A'
entry reports average accuracy NaN, not the mean 50 of the numeric entries. -/
theorem averageWeights_na_counterexample :
    (averageWeights [⟨defaultWeights, some 50⟩, ⟨defaultWeights, none⟩]).averageAccuracy = none
    ∧ (averageWeights [⟨defaultWeights, some 50⟩,
        ⟨defaultWeights, none⟩]).averageAccuracy ≠ some 50 := by
  have h : (averageWeights [⟨defaultWeights, some 50⟩,
      ⟨defaultWeights, none⟩]).averageAccuracy = none := by
    norm_num [averageWeights, accumWeightsAcc, indicatorKeys, addAcc, Weights.set, Weights.get,
      sumW, jsRound, OBI_WEIGHT, defaultWeights]
  exact ⟨h, by rw [h]; simp⟩

/-- C7 amended: averageWeights does not exclude 'N/A' entries.  Their weights
enter the weight averages like any other entry, and because
parseFloat('N/A') is NaN, the reported average accuracy is NaN (none) whenever
at least one panel entry is 'N/A' (in particular a fully-'N/A' panel does not
report a numeric accuracy). -/
theorem averageWeights_na_propagates (panel : List LearnedResult)
    (h : ∃ r ∈ panel, r.accuracy = none) :
    (averageWeights panel).averageAccuracy = none := by
  simp only [averageWeights]
  rw [accumFold_of_mem_none panel _ h]
  rfl

/-- Witness for the amended C7 theorem: a fully-'N/A' singleton panel reports
NaN. -/
theorem averageWeights_na_propagates_witness :
    (∃ r ∈ ([⟨defaultWeights, none⟩] : List LearnedResult), r.accuracy = none)
    ∧ (averageWeights [⟨defaultWeights, none⟩]).averageAccuracy = none :=
  ⟨⟨⟨defaultWeights, none⟩, by simp, rfl⟩,
   averageWeights_na_propagates _ ⟨⟨defaultWeights, none⟩, by simp, rfl⟩⟩

/-! ## C6: the per-trial update rule -/

/-- Closed form of the reward loop over the four keys. -/
lemma foldl_reward_eq (cs : ComponentScores) (s : ℚ) (w : Weights) :
    indicatorKeys.foldl (fun acc k =>
        if jsSign (cs.get k) = jsSign s then acc.set k (min 100 (acc.get k + LEARNING_RATE))
        else acc) w
      = ⟨if jsSign cs.OBV = jsSign s then min 100 (w.OBV + LEARNING_RATE) else w.OBV,
         if jsSign cs.STOCH = jsSign s then min 100 (w.STOCH + LEARNING_RATE) else w.STOCH,
         if jsSign cs.OI_PROXY = jsSign s then min 100 (w.OI_PROXY + LEARNING_RATE)
           else w.OI_PROXY,
         if jsSign cs.MACD = jsSign s then min 100 (w.MACD + LEARNING_RATE) else w.MACD⟩ := by
  obtain ⟨a, b, c, d⟩ := w
  simp only [indicatorKeys, List.foldl_cons, List.foldl_nil, ComponentScores.get]
  split_ifs <;> rfl

/-- Closed form of the penalty loop over the four keys. -/
lemma foldl_penalty_eq (cs : ComponentScores) (s : ℚ) (w : Weights) :
    indicatorKeys.foldl (fun acc k =>
        if jsSign (cs.get k) = jsSign s then acc.set k (max 5 (acc.get k - LEARNING_RATE))
        else acc) w
      = ⟨if jsSign cs.OBV = jsSign s then max 5 (w.OBV - LEARNING_RATE) else w.OBV,
         if jsSign cs.STOCH = jsSign s then max 5 (w.STOCH - LEARNING_RATE) else w.STOCH,
         if jsSign cs.OI_PROXY = jsSign s then max 5 (w.OI_PROXY - LEARNING_RATE)
           else w.OI_PROXY,
         if jsSign cs.MACD = jsSign s then max 5 (w.MACD - LEARNING_RATE) else w.MACD⟩ := by
  obtain ⟨a, b, c, d⟩ := w
  simp only [indicatorKeys, List.foldl_cons, List.foldl_nil, ComponentScores.get]
  split_ifs <;> rfl

/-- Per-key characterization of applyTrialUpdate: a key moves exactly when the
sign of its contribution equals the sign of the net score, up by the learning
rate capped at 100 on a hit, down by the learning rate floored at 5 on a miss. -/
lemma applyTrialUpdate_get (hit : Bool) (cs : ComponentScores) (s : ℚ) (w : Weights)
    (k : IKey) :
    (applyTrialUpdate hit cs s w).get k
      = if jsSign (cs.get k) = jsSign s then
          (if hit then min 100 (w.get k + LEARNING_RATE) else max 5 (w.get k - LEARNING_RATE))
        else w.get k := by
  cases hit
  · rw [applyTrialUpdate, if_neg (by simp), foldl_penalty_eq]
    cases k <;> simp only [Weights.get, ComponentScores.get, Bool.false_eq_true, if_false]
  · rw [applyTrialUpdate, if_pos rfl, foldl_reward_eq]
    cases k <;> simp only [Weights.get, ComponentScores.get, if_true]

/-- The per-trial update keeps each key inside [5, 100]. -/
lemma applyTrialUpdate_range (hit : Bool) (cs : ComponentScores) (s : ℚ) (w : Weights)
    (k : IKey) (h5 : 5 ≤ w.get k) (h100 : w.get k ≤ 100) :
    5 ≤ (applyTrialUpdate hit cs s w).get k ∧ (applyTrialUpdate hit cs s w).get k ≤ 100 := by
  rw [applyTrialUpdate_get]
  simp only [LEARNING_RATE]
  split_ifs
  · exact ⟨le_min (by norm_num) (by linarith), min_le_left _ _⟩
  · exact ⟨le_max_left _ _, max_le (by norm_num) (by linarith)⟩
  · exact ⟨h5, h100⟩

/-- C6: in every learner trial, exactly the adjustable keys whose contribution
sign matches the sign of the net score are adjusted, by +0.5 capped at 100 on
a hit and -0.5 floored at 5 on a miss; the other keys are unchanged, and a key
inside [5, 100] stays inside [5, 100] after the trial (confirmed). -/
theorem trial_update_rule (hit : Bool) (cs : ComponentScores) (s : ℚ) (w : Weights)
    (k : IKey) :
    ((applyTrialUpdate hit cs s w).get k
      = if jsSign (cs.get k) = jsSign s then
          (if hit then min 100 (w.get k + LEARNING_RATE) else max 5 (w.get k - LEARNING_RATE))
        else w.get k)
    ∧ (5 ≤ w.get k → w.get k ≤ 100 →
        5 ≤ (applyTrialUpdate hit cs s w).get k ∧ (applyTrialUpdate hit cs s w).get k ≤ 100) :=
  ⟨applyTrialUpdate_get hit cs s w k,
   fun h5 h100 => applyTrialUpdate_range hit cs s w k h5 h100⟩

/-- Witness for the C6 theorem at a concrete hit trial on the default
weights. -/
theorem trial_update_rule_witness :
    (5 ≤ defaultWeights.get IKey.OBV ∧ defaultWeights.get IKey.OBV ≤ 100)
    ∧ (5 ≤ (applyTrialUpdate true ⟨1, 1, 1, 1, 0⟩ 4 defaultWeights).get IKey.OBV
       ∧ (applyTrialUpdate true ⟨1, 1, 1, 1, 0⟩ 4 defaultWeights).get IKey.OBV ≤ 100) :=
  ⟨⟨by norm_num [defaultWeights, Weights.get], by norm_num [defaultWeights, Weights.get]⟩,
   (trial_update_rule true ⟨1, 1, 1, 1, 0⟩ 4 defaultWeights .OBV).2
     (by norm_num [defaultWeights, Weights.get]) (by norm_num [defaultWeights, Weights.get])⟩

/-! ## C2 and C3: the length of the ATR array and the volatility gate -/

lemma trueRangesOf_length (data : List Candle) :
    (trueRangesOf data).length = data.length - 1 := by
  rw [trueRangesOf, List.length_map, List.length_zip, List.length_tail]
  exact min_eq_right (Nat.sub_le _ _)

lemma atrGo_length (window : ℕ) (l : List ℚ) :
    ∀ cur, (atrGo window l cur).length = l.length := by
  induction l with
  | nil => intro cur; rfl
  | cons t rest ih => intro cur; simp [atrGo, ih]

/-- The array returned by calculate_atr for a series of at least 15 candles
has length data.length - 13: the padding count uses the true-range count, so
the output is 13 entries short of the candle count. -/
lemma calculate_atr_length (data : List Candle) (h : 15 ≤ data.length) :
    (calculate_atr data 14).length = data.length - 13 := by
  have htr := trueRangesOf_length data
  simp only [calculate_atr, List.length_append, List.length_replicate]
  rw [if_pos (by omega : 0 < (trueRangesOf data).length)]
  simp only [List.length_cons, atrGo_length, List.length_drop]
  omega

/-- C2: at a concrete 16-candle series, calculate_atr returns an array of
length 3, not 16: the output is not left-padded up to the candle-sequence
length (the padding count is data.length - trueRanges.length = 1, not
data.length - atr.length). -/
theorem calculate_atr_length_failing :
    (List.replicate 16 (⟨1, 3, 1, 2, 5⟩ : Candle)).length = 16
    ∧ (calculate_atr (List.replicate 16 ⟨1, 3, 1, 2, 5⟩) 14).length = 3 := by
  constructor
  · simp
  · norm_num [calculate_atr, trueRangesOf, atrGo, List.replicate, List.zip, List.zipWith]

/-- C3: for a candle series of length 199 or 200 (the only lengths the scan's
history guard admits at lookback 200), the ATR lookup at index length - 2 is
past the end of the array calculate_atr returns, so the volatility quotient is
taken as 0, the gate (quotient > 0.5) cannot pass, and processSymbolForScan
returns null whatever the order book and weights are (confirmed). -/
theorem processSymbolForScan_gate_never_passes (data : List Candle)
    (ob : Option OrderBook) (w : Weights)
    (h : data.length = 199 ∨ data.length = 200) :
    (calculate_atr data 14).get? (data.length - 2) = none
    ∧ processSymbolForScan data ob w = none := by
  have hlen : (calculate_atr data 14).length = data.length - 13 :=
    calculate_atr_length data (by omega)
  have hget : (calculate_atr data 14).get? (data.length - 2) = none :=
    List.get?_eq_none.mpr (by omega)
  refine ⟨hget, ?_⟩
  simp only [processSymbolForScan, LOOKBACK_PERIOD]
  rw [if_neg (by omega : ¬ data.length < 200 - 1)]
  refine if_neg ?_
  rintro ⟨-, hgt⟩
  rw [hget] at hgt
  norm_num at hgt

/-- Witness for the C3 theorem at a concrete 199-candle series. -/
theorem processSymbolForScan_gate_never_passes_witness :
    ((List.replicate 199 defaultCandle).length = 199
      ∨ (List.replicate 199 defaultCandle).length = 200)
    ∧ processSymbolForScan (List.replicate 199 defaultCandle) none defaultWeights = none :=
  ⟨Or.inl (by rw [List.length_replicate]),
   (processSymbolForScan_gate_never_passes _ none defaultWeights
     (Or.inl (by rw [List.length_replicate]))).2⟩

/-! ## C8: the bounded-concurrency scheduler -/

lemma okVals_nil {α : Type} : okVals ([] : List (TaskOutcome α)) = [] := rfl

lemma okVals_append {α : Type} (l1 l2 : List (TaskOutcome α)) :
    okVals (l1 ++ l2) = okVals l1 ++ okVals l2 :=
  List.filterMap_append l1 l2 _

/-- Removing the element at a valid index is a permutation once the element is
put back in front. -/
lemma getD_cons_eraseIdx_perm {β : Type} (l : List β) (d : β) :
    ∀ i, i < l.length → l.Perm (l.getD i d :: l.eraseIdx i) := by
  induction l with
  | nil => intro i hi; simp at hi
  | cons x xs ih =>
    intro i hi
    cases i with
    | zero => simp
    | succ n =>
      have h := ih n (by simpa using hi)
      simp only [List.getD_cons_succ, List.eraseIdx_cons_succ]
      exact (h.cons x).trans (List.Perm.swap _ _ _)

lemma settleOne_length {α : Type} (active : List (TaskOutcome α)) (res : List α)
    (ch : ℕ) (h : active ≠ []) :
    (settleOne active res ch).1.length = active.length - 1 := by
  cases active with
  | nil => exact absurd rfl h
  | cons x xs =>
    have hi : ch % (x :: xs).length < (x :: xs).length := Nat.mod_lt _ (by simp)
    have h2 := List.length_eraseIdx_add_one hi
    simp only [settleOne]
    omega

/-- One settlement moves the settled task's contribution from the active set
to the results: the multiset of collected results plus pending fulfilled
values is preserved (a rejecting member contributes nothing either way). -/
lemma settleOne_perm {α : Type} (active : List (TaskOutcome α)) (res : List α)
    (ch : ℕ) (h : active ≠ []) :
    ((settleOne active res ch).2.1 ++ okVals (settleOne active res ch).1).Perm
      (res ++ okVals active) := by
  cases active with
  | nil => exact absurd rfl h
  | cons x xs =>
    have hi : ch % (x :: xs).length < (x :: xs).length := Nat.mod_lt _ (by simp)
    have hp := getD_cons_eraseIdx_perm (x :: xs) TaskOutcome.reject (ch % (x :: xs).length) hi
    have hok : (okVals (x :: xs)).Perm
        (okVals ((x :: xs).getD (ch % (x :: xs).length) TaskOutcome.reject
          :: (x :: xs).eraseIdx (ch % (x :: xs).length))) := hp.filterMap _
    simp only [settleOne]
    rcases htv : (x :: xs).getD (ch % (x :: xs).length) TaskOutcome.reject with _ | ov
    · rw [htv] at hok
      exact (List.Perm.append_left res (by simpa [okVals] using hok)).symm
    · cases ov with
      | none =>
        rw [htv] at hok
        exact (List.Perm.append_left res (by simpa [okVals] using hok)).symm
      | some v =>
        rw [htv] at hok
        have hok' : (okVals (x :: xs)).Perm
            (v :: okVals ((x :: xs).eraseIdx (ch % (x :: xs).length))) := by
          simpa [okVals] using hok
        have heq : (res ++ [v]) ++ okVals ((x :: xs).eraseIdx (ch % (x :: xs).length))
            = res ++ (v :: okVals ((x :: xs).eraseIdx (ch % (x :: xs).length))) := by
          simp
        rw [heq]
        exact List.Perm.append_left res hok'.symm

/-- Launch-loop invariant, aborting runs included: if the active set starts
below the limit and every recorded size so far is within the limit, the same
holds all the way through (also at the point an await throws), and the loop
ends below the limit. -/
lemma launchLoop_trace {α : Type} (limit : ℕ) (oracle : ℕ → ℕ) (hl : 1 ≤ limit) :
    ∀ (pending : List (TaskOutcome α)) (st : WCState α),
      st.active.length < limit → (∀ s ∈ st.trace, s ≤ limit) →
      (∀ s ∈ (launchLoop limit oracle pending st).trace, s ≤ limit)
      ∧ (launchLoop limit oracle pending st).active.length < limit := by
  intro pending
  induction pending with
  | nil => intro st h1 h2; exact ⟨h2, h1⟩
  | cons t rest ih =>
    intro st h1 h2
    rw [launchLoop]
    by_cases hc : limit ≤ (st.active ++ [t]).length
    · rw [if_pos hc]
      have hslen := settleOne_length (st.active ++ [t]) st.results (oracle st.cursor) (by simp)
      have hlen1 : (st.active ++ [t]).length = st.active.length + 1 := by simp
      have hmem : ∀ s, s ∈ st.trace ∨ s = (st.active ++ [t]).length
          ∨ s = (settleOne (st.active ++ [t]) st.results (oracle st.cursor)).1.length →
          s ≤ limit := by
        intro s hs
        rcases hs with hs | hs | hs
        · exact h2 s hs
        · omega
        · omega
      by_cases hab : (settleOne (st.active ++ [t]) st.results (oracle st.cursor)).2.2 = true
      · rw [if_pos hab]
        refine ⟨?_, ?_⟩
        · intro s hs
          simp only [List.mem_append, List.mem_cons, List.not_mem_nil, or_false] at hs
          exact hmem s hs
        · show (settleOne (st.active ++ [t]) st.results (oracle st.cursor)).1.length < limit
          omega
      · rw [if_neg hab]
        apply ih
        · show (settleOne (st.active ++ [t]) st.results (oracle st.cursor)).1.length < limit
          omega
        · intro s hs
          simp only [List.mem_append, List.mem_cons, List.not_mem_nil, or_false] at hs
          exact hmem s hs
    · rw [if_neg hc]
      apply ih
      · show (st.active ++ [t]).length < limit
        omega
      · intro s hs
        simp only [List.mem_append, List.mem_cons, List.not_mem_nil, or_false] at hs
        rcases hs with hs | hs
        · exact h2 s hs
        · omega

/-- Launch-loop result accounting on runs in which no await has thrown. -/
lemma launchLoop_perm {α : Type} (limit : ℕ) (oracle : ℕ → ℕ) :
    ∀ (pending : List (TaskOutcome α)) (st : WCState α),
      (launchLoop limit oracle pending st).thrown = false →
      ((launchLoop limit oracle pending st).results
        ++ okVals (launchLoop limit oracle pending st).active).Perm
      (st.results ++ okVals st.active ++ okVals pending) := by
  intro pending
  induction pending with
  | nil =>
    intro st _
    rw [launchLoop]
    simp only [okVals_nil, List.append_nil]
    exact List.Perm.refl _
  | cons t rest ih =>
    intro st hth
    rw [launchLoop] at hth ⊢
    by_cases hc : limit ≤ (st.active ++ [t]).length
    · rw [if_pos hc] at hth ⊢
      by_cases hab : (settleOne (st.active ++ [t]) st.results (oracle st.cursor)).2.2 = true
      · rw [if_pos hab] at hth
        simp only [hab] at hth
        exact Bool.noConfusion hth
      · rw [if_neg hab] at hth ⊢
        have hset := settleOne_perm (st.active ++ [t]) st.results (oracle st.cursor) (by simp)
        refine (ih _ hth).trans ?_
        have h1 := hset.append_right (okVals rest)
        have heq : okVals (t :: rest) = okVals [t] ++ okVals rest := okVals_append [t] rest
        have heq2 : okVals (st.active ++ [t]) = okVals st.active ++ okVals [t] :=
          okVals_append st.active [t]
        calc ((settleOne (st.active ++ [t]) st.results (oracle st.cursor)).2.1
                ++ okVals (settleOne (st.active ++ [t]) st.results (oracle st.cursor)).1)
                ++ okVals rest
            |>.Perm ((st.results ++ okVals (st.active ++ [t])) ++ okVals rest) := h1
          _ = st.results ++ okVals st.active ++ okVals (t :: rest) := by
              rw [heq, heq2, List.append_assoc, List.append_assoc, List.append_assoc]
    · rw [if_neg hc] at hth ⊢
      refine (ih _ hth).trans ?_
      have heq : okVals (t :: rest) = okVals [t] ++ okVals rest := okVals_append [t] rest
      have heq2 : okVals (st.active ++ [t]) = okVals st.active ++ okVals [t] :=
        okVals_append st.active [t]
      rw [heq, heq2, List.append_assoc, List.append_assoc, List.append_assoc]

/-- Drain-loop trace invariant, aborting runs included. -/
lemma drainLoop_trace {α : Type} (oracle : ℕ → ℕ) (limit : ℕ) :
    ∀ (fuel : ℕ) (st : WCState α),
      st.active.length ≤ limit → (∀ s ∈ st.trace, s ≤ limit) →
      ∀ s ∈ (drainLoop oracle fuel st).trace, s ≤ limit := by
  intro fuel
  induction fuel with
  | zero => intro st _ h2; exact h2
  | succ n ih =>
    rintro ⟨act, res, tr, cur, th⟩ h1 h2
    simp only at h1 h2
    cases act with
    | nil => exact h2
    | cons x xs =>
      have hslen := settleOne_length (x :: xs) res (oracle cur) (by simp)
      simp only [drainLoop]
      have hmem : ∀ s, s ∈ tr ∨ s = (settleOne (x :: xs) res (oracle cur)).1.length →
          s ≤ limit := by
        intro s hs
        rcases hs with hs | hs
        · exact h2 s hs
        · omega
      by_cases hab : (settleOne (x :: xs) res (oracle cur)).2.2 = true
      · rw [if_pos hab]
        intro s hs
        simp only [List.mem_append, List.mem_cons, List.not_mem_nil, or_false] at hs
        exact hmem s hs
      · rw [if_neg hab]
        apply ih
        · simp only [hslen]
          omega
        · intro s hs
          simp only [List.mem_append, List.mem_cons, List.not_mem_nil, or_false] at hs
          exact hmem s hs

/-- Drain-loop result accounting on runs in which no await has thrown. -/
lemma drainLoop_perm {α : Type} (oracle : ℕ → ℕ) :
    ∀ (fuel : ℕ) (st : WCState α),
      (drainLoop oracle fuel st).thrown = false →
      ((drainLoop oracle fuel st).results ++ okVals (drainLoop oracle fuel st).active).Perm
      (st.results ++ okVals st.active) := by
  intro fuel
  induction fuel with
  | zero => intro st _; exact List.Perm.refl _
  | succ n ih =>
    rintro ⟨act, res, tr, cur, th⟩ hth
    cases act with
    | nil => exact List.Perm.refl _
    | cons x xs =>
      simp only [drainLoop] at hth ⊢
      by_cases hab : (settleOne (x :: xs) res (oracle cur)).2.2 = true
      · rw [if_pos hab] at hth
        simp only [hab] at hth
        exact Bool.noConfusion hth
      · rw [if_neg hab] at hth ⊢
        have hset := settleOne_perm (x :: xs) res (oracle cur) (by simp)
        exact (ih _ hth).trans hset

/-- On a run in which no await throws, the drain loop settles everything. -/
lemma drainLoop_empties {α : Type} (oracle : ℕ → ℕ) :
    ∀ (fuel : ℕ) (st : WCState α),
      st.active.length ≤ fuel → (drainLoop oracle fuel st).thrown = false →
      (drainLoop oracle fuel st).active = [] := by
  intro fuel
  induction fuel with
  | zero =>
    intro st h _
    rw [drainLoop]
    exact List.length_eq_zero.mp (Nat.le_zero.mp h)
  | succ n ih =>
    rintro ⟨act, res, tr, cur, th⟩ h hth
    simp only at h
    cases act with
    | nil => rfl
    | cons x xs =>
      have hslen := settleOne_length (x :: xs) res (oracle cur) (by simp)
      simp only [drainLoop] at hth ⊢
      by_cases hab : (settleOne (x :: xs) res (oracle cur)).2.2 = true
      · rw [if_pos hab] at hth
        simp only [hab] at hth
        exact Bool.noConfusion hth
      · rw [if_neg hab] at hth ⊢
        apply ih _ _ hth
        rw [hslen]
        simp only [List.length_cons] at h ⊢
        omega

/-- The concurrency bound of the original claim does hold on every schedule,
aborting ones included: the in-flight set never exceeds the limit at any
recorded instant. -/
lemma runWithConcurrency_trace_le {α : Type} (tasks : List (TaskOutcome α))
    (limit : ℕ) (oracle : ℕ → ℕ) (hl : 1 ≤ limit) :
    ∀ s ∈ (runWithConcurrency tasks limit oracle).trace, s ≤ limit := by
  have hstart : (⟨[], [], [], 0, false⟩ : WCState α).active.length < limit := by
    simpa using hl
  have htr0 : ∀ s ∈ (⟨[], [], [], 0, false⟩ : WCState α).trace, s ≤ limit := by simp
  have hL := launchLoop_trace limit oracle hl tasks ⟨[], [], [], 0, false⟩ hstart htr0
  rw [runWithConcurrency]
  by_cases hth : (launchLoop limit oracle tasks ⟨[], [], [], 0, false⟩).thrown = true
  · rw [if_pos hth]
    exact hL.1
  · rw [if_neg hth]
    exact drainLoop_trace oracle limit _ _ (le_of_lt hL.2) hL.1

/-- When the returned promise does not reject (no task rejection was observed
by an await), every fulfilled non-null task value is collected: the results
are a permutation of them. -/
lemma runWithConcurrency_success_perm {α : Type} (tasks : List (TaskOutcome α))
    (limit : ℕ) (oracle : ℕ → ℕ)
    (h : (runWithConcurrency tasks limit oracle).thrown = false) :
    (runWithConcurrency tasks limit oracle).results.Perm (okVals tasks) := by
  rw [runWithConcurrency] at h ⊢
  by_cases hth : (launchLoop limit oracle tasks ⟨[], [], [], 0, false⟩).thrown = true
  · rw [if_pos hth] at h
    rw [h] at hth
    cases hth
  · rw [if_neg hth] at h ⊢
    have hlaunch : (launchLoop limit oracle tasks ⟨[], [], [], 0, false⟩).thrown = false :=
      Bool.not_eq_true _ |>.mp hth
    have hde := drainLoop_empties oracle
      (launchLoop limit oracle tasks ⟨[], [], [], 0, false⟩).active.length
      (launchLoop limit oracle tasks ⟨[], [], [], 0, false⟩) (le_refl _) h
    have hdp := drainLoop_perm oracle
      (launchLoop limit oracle tasks ⟨[], [], [], 0, false⟩).active.length
      (launchLoop limit oracle tasks ⟨[], [], [], 0, false⟩) h
    have hlp := launchLoop_perm limit oracle tasks ⟨[], [], [], 0, false⟩ hlaunch
    rw [hde, okVals_nil, List.append_nil] at hdp
    have hlp' : ((launchLoop limit oracle tasks ⟨[], [], [], 0, false⟩).results
        ++ okVals (launchLoop limit oracle tasks ⟨[], [], [], 0, false⟩).active).Perm
        (okVals tasks) := by
      simpa [okVals_nil] using hlp
    exact hdp.trans hlp'

/-- C8: the claim's failure isolation does not hold on the code.  The promise
held in the active Set rejects (its catch sits on a derived promise), so the
rejection of one task makes await Promise.race throw out of runWithConcurrency.
At the concrete input of the claim (25 tasks with limit 10, the first task
rejecting, the oracle settling the oldest member first) the run throws: only
the first 10 of the 25 tasks are ever launched (the trace stops at
[1,...,10,9]), no results are delivered, and the 24 fulfilled values that the
claim promises are lost; the same 24 tasks without the rejecting one complete
with all 24 results. -/
theorem runWithConcurrency_reject_aborts :
    (runWithConcurrency
        (TaskOutcome.reject :: List.replicate 24 (TaskOutcome.fulfill (some (1 : ℕ))))
        10 (fun _ => 0)).thrown = true
    ∧ (runWithConcurrency
        (TaskOutcome.reject :: List.replicate 24 (TaskOutcome.fulfill (some (1 : ℕ))))
        10 (fun _ => 0)).results = []
    ∧ (runWithConcurrency
        (TaskOutcome.reject :: List.replicate 24 (TaskOutcome.fulfill (some (1 : ℕ))))
        10 (fun _ => 0)).trace = [1, 2, 3, 4, 5, 6, 7, 8, 9, 10, 9]
    ∧ okVals (TaskOutcome.reject :: List.replicate 24 (TaskOutcome.fulfill (some (1 : ℕ))))
        = List.replicate 24 1
    ∧ (runWithConcurrency (List.replicate 24 (TaskOutcome.fulfill (some (1 : ℕ))))
        10 (fun _ => 0)).thrown = false
    ∧ (runWithConcurrency (List.replicate 24 (TaskOutcome.fulfill (some (1 : ℕ))))
        10 (fun _ => 0)).results = List.replicate 24 1 := by
  decide

end CryptoScanner
